import Mathlib

/-!
Shallow embedding of the persistence layer of the LisitraMpandray church
administration application (src/src-tauri/src/db/repo.rs and friends).

The Rust Repository stores three SQLite tables (members, contributions,
year_summaries).  Monetary amounts are `rust_decimal::Decimal` values kept in
the database as decimal text; the repository re-parses them on every read.
We model:
  - `Dec` : a decimal number (integer mantissa, base-ten scale), the model of
    `rust_decimal::Decimal`; its string printer models `Decimal`'s `Display`
    (scale-many fractional digits); `decimal_from_str_96` is the full model of
    `Decimal::from_str` (96-bit mantissa bound, underscore separators,
    fractional rounding) used by the caller-facing validation, while
    `decimal_from_str` is the arbitrary-precision simplification applied where
    the repository re-reads its own canonical decimal text;
  - the three tables as Lean lists of row structures, with the text columns
    kept as `String` exactly as SQLite stores them;
  - every Repository operation as a pure function
    `Store -> args -> Except AppErr result × Store`; an operation whose SQL
    transaction fails leaves the store unchanged, matching rollback.
The schema itself (UNIQUE card_number, FOREIGN KEY ... ON DELETE CASCADE) lives
in migration files that are not part of the sources; those two constraints are
modelled from the spec (sections 3 and 6 of the design document), as noted on
the definitions that use them.
-/

namespace LM

/-- Digit characters to natural number, most significant first
(`foldl acc * 10 + digit`). -/
def digitsToNat (l : List Char) : Nat :=
  l.foldl (fun a c => a * 10 + (c.toNat - 48)) 0

/-- Fuel-driven digit extraction (structural recursion on the fuel, so that
the kernel can evaluate it); with fuel above the number it computes the
base-ten digits, most significant first. -/
def natDigitsGo : Nat → Nat → List Char
  | 0, _ => []
  | fuel + 1, n =>
    if n < 10 then [Char.ofNat (48 + n)]
    else natDigitsGo fuel (n / 10) ++ [Char.ofNat (48 + n % 10)]

/-- Decimal digits of a natural number, most significant first; `0` prints as
`"0"`, no leading zeros otherwise. -/
def natDigits (n : Nat) : List Char := natDigitsGo (n + 1) n

/-- Simplified trim (ASCII whitespace only), used in the member emptiness
checks; a string nonempty after this trim is nonempty after the full Unicode
trim as well, so hypotheses stated with it are the wider ones.  The full model
of `str::trim` is `trimRust` below. -/
def trimStr (s : String) : String :=
  ((s.toList.dropWhile Char.isWhitespace).reverse.dropWhile Char.isWhitespace).reverse.asString

/-- The Unicode White_Space property — the exact character set Rust's
`str::trim` removes. -/
def isRustWhitespace (c : Char) : Bool :=
  c = ' ' ∨ c.toNat = 0x9 ∨ c.toNat = 0xA ∨ c.toNat = 0xB ∨ c.toNat = 0xC ∨
  c.toNat = 0xD ∨ c.toNat = 0x85 ∨ c.toNat = 0xA0 ∨ c.toNat = 0x1680 ∨
  (0x2000 ≤ c.toNat ∧ c.toNat ≤ 0x200A) ∨ c.toNat = 0x2028 ∨ c.toNat = 0x2029 ∨
  c.toNat = 0x202F ∨ c.toNat = 0x205F ∨ c.toNat = 0x3000

/-- Model of `str::trim`: drop leading and trailing Unicode White_Space
characters. -/
def trimRust (s : String) : String :=
  ((s.toList.dropWhile isRustWhitespace).reverse.dropWhile
    isRustWhitespace).reverse.asString

/-- Model of `str::is_empty`. -/
def strIsEmpty (s : String) : Bool := s.toList.isEmpty

/-- Model of `rust_decimal::Decimal`: the represented value is
`m / 10 ^ s`. -/
structure Dec where
  m : Int
  s : Nat
deriving DecidableEq, Repr

/-- `Decimal::ZERO`. -/
def decZero : Dec := ⟨0, 0⟩

/-- Rational value denoted by a `Dec`. -/
def Dec.val (d : Dec) : ℚ := (d.m : ℚ) / (10 : ℚ) ^ d.s

/-- Negativity test on a decimal, the model of `amount < Decimal::ZERO`
(`rust_decimal` compares by value; the value is negative exactly when the
mantissa is). -/
def Dec.isNeg (d : Dec) : Bool := d.m < 0

/-- Addition of decimals: rescale to the larger scale and add mantissas
(the scale behaviour of `rust_decimal` addition). -/
def Dec.add (a b : Dec) : Dec :=
  if a.s ≤ b.s then ⟨a.m * (10 : Int) ^ (b.s - a.s) + b.m, b.s⟩
  else ⟨a.m + b.m * (10 : Int) ^ (a.s - b.s), a.s⟩

/-- Split a character list at the first point character, if any. -/
def splitDot : List Char → List Char × Option (List Char)
  | [] => ([], none)
  | c :: r =>
    if c = '.' then ([], some r)
    else
      let p := splitDot r
      (c :: p.1, p.2)

/-- Unsigned part of decimal parsing: digits with at most one point; at least
one digit, and at least one digit after the point when a point is present. -/
def parseUnsignedDec (l : List Char) : Option Dec :=
  match splitDot l with
  | (d1, none) =>
    if d1.all Char.isDigit ∧ d1 ≠ [] then some ⟨(digitsToNat d1 : Int), 0⟩
    else none
  | (d1, some d2) =>
    if d1.all Char.isDigit ∧ d2.all Char.isDigit ∧ d2 ≠ [] then
      some ⟨(digitsToNat (d1 ++ d2) : Int), d2.length⟩
    else none

/-- Model of `Decimal::from_str` on the character list: optional sign, then
digits with at most one decimal point. -/
def parseDecChars : List Char → Option Dec
  | [] => none
  | c :: r =>
    if c = '-' then (parseUnsignedDec r).map (fun d => ⟨-d.m, d.s⟩)
    else if c = '+' then parseUnsignedDec r
    else parseUnsignedDec (c :: r)

/-- Arbitrary-precision decimal parsing: the reading of "parses as an
arbitrary-precision decimal" the spec and the claims use, and the simplified
parser applied where the repository re-reads decimal text it wrote itself (the
row mappers and the year-total recompute) — on such canonical `decToString`
outputs it agrees with the bounded library parser `decimal_from_str_96`
below, which is the full model of `rust_decimal::Decimal::from_str` and is
what the caller-facing `create_contribution` validation uses. -/
def decimal_from_str (str : String) : Option Dec :=
  parseDecChars str.toList

/-- Mantissa bound of the 96-bit `rust_decimal::Decimal`. -/
def decCap : Nat := 2 ^ 96

/-- After excess fractional digits are rounded away, the remaining characters
are still validated: only digits and underscore separators may follow. -/
def parseTail96 : List Char → Bool
  | [] => true
  | c :: r => (c.isDigit || c = '_') && parseTail96 r

/-- Core of `rust_decimal`'s `parse_str_radix_10` after the sign: accumulate a
base-ten mantissa bounded by `2 ^ 96` over digits with at most one decimal
point and at most 28 fractional digits; underscore separators are skipped once
a digit has been seen; overflowing integral digits are an error while an
excess fractional digit rounds the result (half up on the first dropped
digit), the rest being merely validated.  Arguments: remaining characters,
accumulated mantissa, scale so far, digit seen yet, point seen yet, digit
seen after the point yet. -/
def parseDecCore : List Char → Nat → Nat → Bool → Bool → Bool → Option Dec
  | [], acc, sc, seen, inFrac, fracSeen =>
    if seen && (!inFrac || fracSeen) then some ⟨(acc : Int), sc⟩ else none
  | c :: r, acc, sc, seen, inFrac, fracSeen =>
    if c.isDigit then
      let d := c.toNat - 48
      if inFrac then
        if acc * 10 + d < decCap ∧ sc < 28 then
          parseDecCore r (acc * 10 + d) (sc + 1) true inFrac true
        else
          let acc2 := if 5 ≤ d then acc + 1 else acc
          if acc2 < decCap ∧ parseTail96 r then some ⟨(acc2 : Int), sc⟩ else none
      else
        if acc * 10 + d < decCap then
          parseDecCore r (acc * 10 + d) sc true inFrac fracSeen
        else none
    else if c = '_' then
      if seen then parseDecCore r acc sc seen inFrac fracSeen else none
    else if c = '.' then
      if inFrac then none else parseDecCore r acc sc seen true fracSeen
    else none

/-- Full model of `rust_decimal::Decimal::from_str`: optional sign, then the
bounded digit machine above. -/
def decimal_from_str_96 (str : String) : Option Dec :=
  match str.toList with
  | [] => none
  | c :: r =>
    if c = '-' then (parseDecCore r 0 0 false false false).map (fun d => ⟨-d.m, d.s⟩)
    else if c = '+' then parseDecCore r 0 0 false false false
    else parseDecCore (c :: r) 0 0 false false false

/-- Character rendering of a `Dec`, the model of `Decimal`'s `Display`: the
mantissa digits with exactly `s` fractional digits (zero-padded on the left as
needed), no point when the scale is zero, leading minus sign for negative
mantissas. -/
def padDigits (a : Nat) (s : Nat) : List Char :=
  let ds0 := natDigits a
  if s + 1 ≤ ds0.length then ds0
  else List.replicate (s + 1 - ds0.length) '0' ++ ds0

def decChars (d : Dec) : List Char :=
  let ds := padDigits d.m.natAbs d.s
  let ip := ds.take (ds.length - d.s)
  let fp := ds.drop (ds.length - d.s)
  (if d.m < 0 then ['-'] else []) ++ ip ++ (if d.s = 0 then [] else '.' :: fp)

/-- Model of `Decimal`'s `Display` (`to_string`). -/
def decToString (d : Dec) : String := (decChars d).asString

/-- Leap year rule used by `chrono` calendar dates. -/
def isLeapYear (y : Nat) : Bool :=
  y % 4 = 0 ∧ (y % 100 ≠ 0 ∨ y % 400 = 0)

/-- Number of days of a month. -/
def daysInMonth (y : Nat) (mo : Nat) : Nat :=
  if mo = 2 then (if isLeapYear y then 29 else 28)
  else if mo = 4 ∨ mo = 6 ∨ mo = 9 ∨ mo = 11 then 30
  else 31

/-- Greedy scan of at most `maxd` leading digit characters (`chrono`'s
numeric-field scanner): returns the value read, how many digits were
consumed, and the rest. -/
def scanDigits : List Char → Nat → Nat → Nat → Nat × Nat × List Char
  | l, 0, acc, cnt => (acc, cnt, l)
  | [], _ + 1, acc, cnt => (acc, cnt, [])
  | c :: r, maxd + 1, acc, cnt =>
    if c.isDigit then scanDigits r maxd (acc * 10 + (c.toNat - 48)) (cnt + 1)
    else (acc, cnt, c :: r)

/-- Model of `NaiveDate::parse_from_str(s, "%Y-%m-%d")` followed by `.year()`,
with `chrono`'s lenient numeric widths: one to four digits of year and one or
two digits of month and day (zero padding not required), dash separators, no
trailing characters, full calendar validation. -/
def parse_payment_date_year_chrono (str : String) : Option Int :=
  let py := scanDigits str.toList 4 0 0
  if py.2.1 = 0 then none
  else
    match py.2.2 with
    | '-' :: r2 =>
      let pm := scanDigits r2 2 0 0
      if pm.2.1 = 0 then none
      else
        match pm.2.2 with
        | '-' :: r4 =>
          let pd := scanDigits r4 2 0 0
          if pd.2.1 = 0 ∨ pd.2.2 ≠ [] then none
          else if 1 ≤ pm.1 ∧ pm.1 ≤ 12 ∧ 1 ≤ pd.1 ∧ pd.1 ≤ daysInMonth py.1 pm.1 then
            some (py.1 : Int)
          else none
        | _ => none
    | _ => none

-- ── Rows, domain records, store ──────────────────────────────────────────────

/-- A row of the `members` table (src-tauri/src/db/models.rs, `Member`). -/
structure Member where
  id : Int
  card_number : String
  full_name : String
  address : Option String
  phone : Option String
  job : Option String
  gender : String
  member_type : String
  created_at : String
deriving DecidableEq, Repr

/-- `MemberInput` from models.rs. -/
structure MemberInput where
  card_number : String
  full_name : String
  address : Option String
  phone : Option String
  job : Option String
  gender : String
  member_type : String
deriving DecidableEq, Repr

/-- A row of the `contributions` table; `amount` is the decimal TEXT column
exactly as stored. -/
structure ContributionRow where
  id : Int
  member_id : Int
  payment_date : String
  period : String
  amount : String
  recorded_year : Int
deriving DecidableEq, Repr

/-- Domain `Contribution` record (models.rs): `amount` is a parsed decimal. -/
structure Contribution where
  id : Int
  member_id : Int
  payment_date : String
  period : String
  amount : Dec
  recorded_year : Int
deriving DecidableEq, Repr

/-- `ContributionInput` from models.rs: `amount` arrives as a string. -/
structure ContributionInput where
  member_id : Int
  payment_date : String
  period : String
  amount : String
deriving DecidableEq, Repr

/-- A row of the `year_summaries` table; `total` is the decimal TEXT column. -/
structure YearSummaryRow where
  year : Int
  total : String
  closed_at : Option String
  note : Option String
deriving DecidableEq, Repr

/-- Domain `YearSummary` record (models.rs): `total` is a parsed decimal. -/
structure YearSummary where
  year : Int
  total : Dec
  closed_at : Option String
  note : Option String
deriving DecidableEq, Repr

/-- `MemberWithTotal` from models.rs: a member together with the aggregated
contribution total rendered as an integer-valued string. -/
structure MemberWithTotal where
  id : Int
  card_number : String
  full_name : String
  address : Option String
  phone : Option String
  job : Option String
  gender : String
  member_type : String
  created_at : String
  total_contributions : String
deriving DecidableEq, Repr

/-- The SQLite database owned by the Repository: the three tables plus the
rowid counters that produce fresh ids. -/
structure Store where
  members : List Member
  contributions : List ContributionRow
  summaries : List YearSummaryRow
  nextMemberId : Int
  nextContribId : Int
deriving DecidableEq, Repr

/-- Freshly migrated empty database. -/
def emptyStore : Store := ⟨[], [], [], 1, 1⟩

/-- Errors of the underlying store that the claims distinguish
(`sqlx::Error` kinds): `RowNotFound` from `fetch_one` on no rows — the
NotFound kind of the design document; a UNIQUE constraint violation — the
Conflict kind; a FOREIGN KEY violation. -/
inductive DbErr where
  | rowNotFound
  | uniqueViolation
  | fkViolation
deriving DecidableEq, Repr

/-- `AppError` from src-tauri/src/db/error.rs: a storage error or a
validation message. -/
inductive AppErr where
  | db (e : DbErr)
  | validation (msg : String)
deriving DecidableEq, Repr

deriving instance DecidableEq for Except

/-- True for the Validation variant. -/
def AppErr.isValidation : AppErr → Bool
  | .validation _ => true
  | .db _ => false

-- ── Row mappers (repo.rs, map_contribution / map_year_summary) ───────────────

/-- `map_contribution` (repo.rs): the amount text is parsed,
`unwrap_or(Decimal::ZERO)` on failure. -/
def map_contribution (r : ContributionRow) : Contribution :=
  { id := r.id
    member_id := r.member_id
    payment_date := r.payment_date
    period := r.period
    amount := (decimal_from_str r.amount).getD decZero
    recorded_year := r.recorded_year }

/-- `map_year_summary` (repo.rs): the total text is parsed,
`unwrap_or(Decimal::ZERO)` on failure. -/
def map_year_summary (r : YearSummaryRow) : YearSummary :=
  { year := r.year
    total := (decimal_from_str r.total).getD decZero
    closed_at := r.closed_at
    note := r.note }

/-- `format_ariary_note` (repo.rs): integer part of the decimal's string
rendering, grouped in threes with spaces, with the `" Ariary"` suffix. -/
def format_ariary_note (total : Dec) : String :=
  let n := decToString total
  let integer_part := (splitDot n.toList).1
  let len := integer_part.length
  let grouped := integer_part.enum.foldl
    (fun acc p =>
      if 0 < p.1 ∧ (len - p.1) % 3 = 0 then acc ++ [' ', p.2] else acc ++ [p.2])
    []
  grouped.asString ++ " Ariary"

-- ── Year total recompute (repo.rs, refresh_year_total / _tx) ─────────────────

/-- The decimal sum that `refresh_year_total` computes for a year: the amounts
of the contributions recorded in that year, keeping only the parseable ones
(`filter_map(Decimal::from_str(..).ok())`), folded with decimal addition from
`Decimal::ZERO`. -/
def year_sum (cs : List ContributionRow) (y : Int) : Dec :=
  (((cs.filter (fun c => c.recorded_year = y)).map (fun c => c.amount)).filterMap
      decimal_from_str).foldl Dec.add decZero

/-- `refresh_year_total` / `refresh_year_total_tx` (repo.rs): recompute the
year's total from the contribution rows, then upsert into `year_summaries`
(`INSERT .. ON CONFLICT(year) DO UPDATE SET total = excluded.total`), leaving
closed_at and note untouched on an existing row. -/
def refresh_year_total (st : Store) (y : Int) : Store :=
  let str := decToString (year_sum st.contributions y)
  if st.summaries.any (fun r => r.year = y) then
    { st with summaries :=
        st.summaries.map (fun r => if r.year = y then { r with total := str } else r) }
  else
    { st with summaries := st.summaries ++ [⟨y, str, none, none⟩] }

-- ── Member operations (repo.rs) ──────────────────────────────────────────────

/-- `get_member` (repo.rs): `fetch_one` on the id; no row surfaces the
storage-level RowNotFound error. -/
def get_member (st : Store) (id : Int) : Except AppErr Member × Store :=
  match st.members.find? (fun m => m.id = id) with
  | some m => (.ok m, st)
  | none => (.error (.db .rowNotFound), st)

/-- `create_member` (repo.rs): rejects blank card number or full name, then
inserts and returns the persisted record.  The duplicate card check models the
`card_number UNIQUE` schema constraint, which lives in migration files outside
the sources; modelled from the spec (design document section 6 schema). -/
def create_member (st : Store) (input : MemberInput) (now : String) :
    Except AppErr Member × Store :=
  if strIsEmpty (trimStr input.card_number) then
    (.error (.validation "Le numéro de carte est requis."), st)
  else if strIsEmpty (trimStr input.full_name) then
    (.error (.validation "Le nom complet est requis."), st)
  else if st.members.any (fun m => m.card_number = input.card_number) then
    (.error (.db .uniqueViolation), st)
  else
    let member : Member :=
      { id := st.nextMemberId
        card_number := input.card_number
        full_name := input.full_name
        address := input.address
        phone := input.phone
        job := input.job
        gender := input.gender
        member_type := input.member_type
        created_at := now }
    (.ok member,
      { st with members := st.members ++ [member],
                nextMemberId := st.nextMemberId + 1 })

/-- `update_member` (repo.rs): same blank-field validation as create, an
UPDATE of every mutable column on the matching row (id and created_at are not
in the SET list), then a `get_member` read-back, which surfaces RowNotFound
when the id matches nothing.  The duplicate card check models the schema
UNIQUE constraint; it can only fire when the UPDATE touches a row. -/
def update_member (st : Store) (id : Int) (input : MemberInput) :
    Except AppErr Member × Store :=
  if strIsEmpty (trimStr input.card_number) then
    (.error (.validation "Le numéro de carte est requis."), st)
  else if strIsEmpty (trimStr input.full_name) then
    (.error (.validation "Le nom complet est requis."), st)
  else if st.members.any (fun m => m.id = id) ∧
      st.members.any (fun m => m.id ≠ id ∧ m.card_number = input.card_number) then
    (.error (.db .uniqueViolation), st)
  else
    let members1 := st.members.map (fun m =>
      if m.id = id then
        { m with
          card_number := input.card_number
          full_name := input.full_name
          address := input.address
          phone := input.phone
          job := input.job
          gender := input.gender
          member_type := input.member_type }
      else m)
    get_member { st with members := members1 } id

/-- `delete_member` (repo.rs): `DELETE FROM members WHERE id = ?`.  Deleting a
missing id affects zero rows and is not an error.  The removal of the member's
contribution rows models the `ON DELETE CASCADE` foreign key of the schema,
which lives in migration files outside the sources; modelled from the spec
(design document section 6 schema) and the code comment on `delete_member`.
No year total is refreshed here. -/
def delete_member (st : Store) (id : Int) : Except AppErr Unit × Store :=
  (.ok (),
    { st with members := st.members.filter (fun m => m.id ≠ id),
              contributions := st.contributions.filter (fun c => c.member_id ≠ id) })

/-- `transfer_members` (repo.rs): empty id list short-circuits to 0 before any
validation; an unrecognized target category is a Validation error; otherwise a
single UPDATE whose affected-row count (SQLite counts every row matched by the
IN list) is returned. -/
def transfer_members (st : Store) (ids : List Int) (new_type : String) :
    Except AppErr Nat × Store :=
  if ids.isEmpty then (.ok 0, st)
  else if new_type ≠ "Communiant" ∧ new_type ≠ "Cathekomen" then
    (.error (.validation
      ("Type de membre invalide : \x27" ++ new_type ++
        "\x27. Valeurs acceptées : \x27Communiant\x27, \x27Cathekomen\x27.")), st)
  else
    (.ok (st.members.filter (fun m => ids.contains m.id)).length,
      { st with members := st.members.map (fun m =>
          if ids.contains m.id then { m with member_type := new_type } else m) })

-- ── Contribution operations (repo.rs) ────────────────────────────────────────

/-- `create_contribution` (repo.rs): parse the trimmed amount with
`Decimal::from_str` (Validation on failure), reject negative amounts, parse
the payment date with `chrono`'s `%Y-%m-%d` and derive recorded_year from its
year (Validation on failure), then in one transaction insert the row (amount
stored as decimal text) and refresh the year's total.  The existing-member
check models the schema FOREIGN KEY constraint (modelled from the spec,
design document section 6 schema). -/
def create_contribution (st : Store) (input : ContributionInput) :
    Except AppErr Contribution × Store :=
  match decimal_from_str_96 (trimRust input.amount) with
  | none =>
    (.error (.validation
      ("Montant invalide : \x27" ++ input.amount ++
        "\x27. Utilisez le format \x2715000.50\x27.")), st)
  | some amount =>
    if amount.isNeg then
      (.error (.validation "Le montant ne peut pas être négatif."), st)
    else
      match parse_payment_date_year_chrono input.payment_date with
      | none =>
        (.error (.validation
          ("Date de paiement invalide : \x27" ++ input.payment_date ++
            "\x27. Format attendu : YYYY-MM-DD.")), st)
      | some recorded_year =>
        if st.members.any (fun m => m.id = input.member_id) then
          let row : ContributionRow :=
            { id := st.nextContribId
              member_id := input.member_id
              payment_date := input.payment_date
              period := input.period
              amount := decToString amount
              recorded_year := recorded_year }
          let st1 := { st with contributions := st.contributions ++ [row],
                               nextContribId := st.nextContribId + 1 }
          let st2 := refresh_year_total st1 recorded_year
          (.ok { id := row.id
                 member_id := input.member_id
                 payment_date := input.payment_date
                 period := input.period
                 amount := amount
                 recorded_year := recorded_year }, st2)
        else (.error (.db .fkViolation), st)

/-- `delete_contribution` (repo.rs): in one transaction, read the row's
recorded_year with `fetch_one` (RowNotFound when the id is missing, rolling
back), delete the row, and refresh that year's total. -/
def delete_contribution (st : Store) (id : Int) : Except AppErr Unit × Store :=
  match st.contributions.find? (fun c => c.id = id) with
  | none => (.error (.db .rowNotFound), st)
  | some c =>
    let st1 := { st with contributions := st.contributions.filter (fun d => d.id ≠ id) }
    (.ok (), refresh_year_total st1 c.recorded_year)

-- ── Year summary operations (repo.rs) ────────────────────────────────────────

/-- `get_year_summary` (repo.rs): optional fetch of the year's row, mapped
through `map_year_summary`. -/
def get_year_summary (st : Store) (y : Int) : Option YearSummary :=
  (st.summaries.find? (fun r => r.year = y)).map map_year_summary

/-- `close_year` (repo.rs): in one transaction refresh the year's total, set
closed_at to the current timestamp and note to the supplied note, and read the
final state back. -/
def close_year (st : Store) (y : Int) (note : Option String) (now : String) :
    Except AppErr YearSummary × Store :=
  let st1 := refresh_year_total st y
  let st2 := { st1 with summaries := st1.summaries.map (fun r =>
      if r.year = y then { r with closed_at := some now, note := note } else r) }
  match get_year_summary st2 y with
  | some summ => (.ok summ, st2)
  | none =>
    (.error (.validation ("Résumé pour " ++ toString y ++ " introuvable.")), st2)

/-- `reopen_year` (repo.rs): clear closed_at and note on the year's row, then
read the summary back; a missing row surfaces as a Validation error with a
"summary not found" message. -/
def reopen_year (st : Store) (y : Int) : Except AppErr YearSummary × Store :=
  let st1 := { st with summaries := st.summaries.map (fun r =>
      if r.year = y then { r with closed_at := none, note := none } else r) }
  match get_year_summary st1 y with
  | some summ => (.ok summ, st1)
  | none =>
    (.error (.validation ("Résumé pour " ++ toString y ++ " introuvable.")), st1)

/-- The note text `check_and_close_previous_year` synthesizes. -/
def closing_note (prev_year : Int) (total : Dec) : String :=
  "CONTRIBUTIONS de l\x27année " ++ toString prev_year ++ " / TOTAL : " ++
    format_ariary_note total

/-- `check_and_close_previous_year` (repo.rs).  The previous calendar year
(`Utc::now().year() - 1` in the source) and the closing timestamp are taken as
arguments, the current date being an outside input.  Already closed: None and
no state change.  Otherwise: refresh the total, read it back, synthesize the
note, and close the year, returning the closed summary. -/
def check_and_close_previous_year (st : Store) (prev_year : Int) (now : String) :
    Except AppErr (Option YearSummary) × Store :=
  let alreadyClosed :=
    match get_year_summary st prev_year with
    | some existing => existing.closed_at.isSome
    | none => false
  if alreadyClosed then (.ok none, st)
  else
    let st1 := refresh_year_total st prev_year
    let total := ((get_year_summary st1 prev_year).map (fun s => s.total)).getD decZero
    let note := closing_note prev_year total
    match close_year st1 prev_year (some note) now with
    | (.ok summ, st2) => (.ok (some summ), st2)
    | (.error e, st2) => (.error e, st2)

-- ── List/aggregate reads (repo.rs) ───────────────────────────────────────────

/-- Name order used by every member listing (`ORDER BY full_name ASC`,
byte-wise BINARY collation, modelled by the lexicographic order on
strings). -/
def byName (a b : Member) : Prop := a.full_name ≤ b.full_name

instance : DecidableRel byName := fun a b =>
  inferInstanceAs (Decidable (a.full_name ≤ b.full_name))

instance : IsTotal Member byName := ⟨fun a b => le_total a.full_name b.full_name⟩

instance : IsTrans Member byName := ⟨fun _ _ _ hab hbc => le_trans hab hbc⟩

/-- Model of SQLite `CAST(text AS REAL)` on the decimal-text amounts followed
by `SUM`, idealized as exact rational arithmetic (a non-numeric text casts to
zero; on the decimal strings the repository itself writes, and on the inputs
the claims evaluate, the idealization agrees with the 64-bit REAL value). -/
def cast_real (a : String) : ℚ := ((decimal_from_str a).getD decZero).val

/-- Sum of a member's contribution amounts as the REAL aggregate
(`COALESCE(SUM(CAST(c.amount AS REAL)), 0.0)`). -/
def member_total (cs : List ContributionRow) (member_id : Int) : ℚ :=
  ((cs.filter (fun c => c.member_id = member_id)).map (fun c => cast_real c.amount)).sum

/-- Rounding to the nearest integer with ties to even: the rounding Rust's
float formatting applies for `format!("\x7b:.0\x7d", total)`. -/
def round_half_even (q : ℚ) : Int :=
  let fl := ⌊q⌋
  if q - fl < 1 / 2 then fl
  else if 1 / 2 < q - fl then fl + 1
  else if fl % 2 = 0 then fl else fl + 1

/-- Integer rendered in base ten with a leading minus sign when negative. -/
def intToString (n : Int) : String :=
  (if n < 0 then "-" else "") ++ (natDigits n.natAbs).asString

/-- Model of `format!("\x7b:.0\x7d", total)` on the aggregated REAL total:
round to the nearest integer, ties to even, and print with no decimal
places. -/
def format_total_f0 (q : ℚ) : String := intToString (round_half_even q)

/-- `get_members_by_type_with_total` (repo.rs): members of the category,
ordered by full name, each with the coalesced REAL sum of their contribution
amounts formatted with zero decimal places. -/
def get_members_by_type_with_total (st : Store) (member_type : String) :
    List MemberWithTotal :=
  ((st.members.filter (fun m => m.member_type = member_type)).insertionSort byName).map
    (fun m =>
      { id := m.id
        card_number := m.card_number
        full_name := m.full_name
        address := m.address
        phone := m.phone
        job := m.job
        gender := m.gender
        member_type := m.member_type
        created_at := m.created_at
        total_contributions := format_total_f0 (member_total st.contributions m.id) })

-- ── Operation alphabet and reachability ──────────────────────────────────────

/-- One Repository mutation with its caller-supplied arguments; timestamps
(`now`) and the previous calendar year are outside inputs carried in the
operation. -/
inductive Op where
  | create_member (input : MemberInput) (now : String)
  | update_member (id : Int) (input : MemberInput)
  | delete_member (id : Int)
  | transfer_members (ids : List Int) (new_type : String)
  | create_contribution (input : ContributionInput)
  | delete_contribution (id : Int)
  | close_year (y : Int) (note : Option String) (now : String)
  | reopen_year (y : Int)
  | check_and_close_previous_year (prev_year : Int) (now : String)

/-- The store an operation leaves behind (failing operations roll back and
leave the store unchanged, which each operation already encodes). -/
def applyOp (st : Store) : Op → Store
  | .create_member input now => (create_member st input now).2
  | .update_member id input => (update_member st id input).2
  | .delete_member id => (delete_member st id).2
  | .transfer_members ids t => (transfer_members st ids t).2
  | .create_contribution input => (create_contribution st input).2
  | .delete_contribution id => (delete_contribution st id).2
  | .close_year y note now => (close_year st y note now).2
  | .reopen_year y => (reopen_year st y).2
  | .check_and_close_previous_year p now => (check_and_close_previous_year st p now).2

/-- Whether the operation is a member deletion. -/
def Op.isDeleteMember : Op → Bool
  | .delete_member _ => true
  | _ => false

/-- Stores reachable from the freshly migrated database by any sequence of
Repository operations. -/
inductive Reachable : Store → Prop where
  | init : Reachable emptyStore
  | step (st : Store) (op : Op) : Reachable st → Reachable (applyOp st op)

/-- Stores reachable by operation sequences that never delete a member. -/
inductive ReachableNoMemberDelete : Store → Prop where
  | init : ReachableNoMemberDelete emptyStore
  | step (st : Store) (op : Op) : ReachableNoMemberDelete st →
      op.isDeleteMember = false → ReachableNoMemberDelete (applyOp st op)

/-- The year-total invariant at the string level: every stored total is the
printout of the recomputed decimal sum of its year's contribution rows. -/
def TotalsInv (st : Store) : Prop :=
  ∀ r ∈ st.summaries, r.total = decToString (year_sum st.contributions r.year)

/-- Contribution-id discipline the rowid counter maintains: ids are below the
counter and have no duplicates. -/
def IdsInv (st : Store) : Prop :=
  (∀ c ∈ st.contributions, c.id < st.nextContribId) ∧
    (st.contributions.map (fun c => c.id)).Nodup

/-- Combined store discipline: id counters sound and every stored year total
current. -/
def GoodStore (st : Store) : Prop := IdsInv st ∧ TotalsInv st

/-- The decoded decimal value of a stored amount or total text, zero when the
text does not parse — exactly how every repository read interprets it. -/
def decodedVal (a : String) : ℚ := ((decimal_from_str a).getD decZero).val

/-- The exact rational sum of the (decoded) amounts of a year's
contributions. -/
def year_sum_val (cs : List ContributionRow) (y : Int) : ℚ :=
  ((cs.filter (fun c => c.recorded_year = y)).map (fun c => decodedVal c.amount)).sum

-- ── Sample data for concrete evaluations ─────────────────────────────────────

/-- A well-formed member input used for concrete evaluations. -/
def sampleMemberInput : MemberInput :=
  { card_number := "C001"
    full_name := "Alice"
    address := none
    phone := none
    job := none
    gender := "F"
    member_type := "Communiant" }

/-- Store holding the single member `Alice` (id 1). -/
def storeOneMember : Store :=
  applyOp emptyStore (.create_member sampleMemberInput "2024-01-01T00:00:00")

/-- Member 1 with one 100-Ariary contribution recorded in 2024. -/
def storeOneContribution : Store :=
  applyOp storeOneMember (.create_contribution ⟨1, "2024-05-01", "2024", "100"⟩)

/-- `storeOneContribution` after the member (and, by cascade, the
contribution) is deleted. -/
def storeAfterMemberDelete : Store :=
  applyOp storeOneContribution (.delete_member 1)

/-- Member 1 with one 1.5-Ariary contribution (a fractional amount). -/
def storeFractionalContribution : Store :=
  applyOp storeOneMember (.create_contribution ⟨1, "2024-05-01", "2024", "1.5"⟩)

-- ═════════════════════════════════ Theorems ═════════════════════════════════

-- ── Digit strings: printing and parsing are mutually inverse ─────────────────

theorem char_ofNat_digit_isDigit (k : Nat) (hk : k < 10) :
    (Char.ofNat (48 + k)).isDigit = true := by
  interval_cases k <;> decide

theorem char_ofNat_digit_toNat (k : Nat) (hk : k < 10) :
    (Char.ofNat (48 + k)).toNat = 48 + k := by
  interval_cases k <;> decide

theorem isDigit_ne_dash {c : Char} (h : c.isDigit = true) : ¬c = '-' :=
  fun he => absurd (he ▸ h) (by decide)

theorem isDigit_ne_plus {c : Char} (h : c.isDigit = true) : ¬c = '+' :=
  fun he => absurd (he ▸ h) (by decide)

theorem isDigit_ne_dot {c : Char} (h : c.isDigit = true) : ¬c = '.' :=
  fun he => absurd (he ▸ h) (by decide)

theorem natDigitsGo_fuel (f1 : Nat) : ∀ (f2 n : Nat), n < f1 → n < f2 →
    natDigitsGo f1 n = natDigitsGo f2 n := by
  induction f1 with
  | zero => intro f2 n h1 h2; omega
  | succ f ih =>
    intro f2 n h1 h2
    cases f2 with
    | zero => omega
    | succ g =>
      rw [natDigitsGo, natDigitsGo]
      by_cases h10 : n < 10
      · rw [if_pos h10, if_pos h10]
      · rw [if_neg h10, if_neg h10]
        have hdiv : n / 10 < n := Nat.div_lt_self (by omega) (by decide)
        rw [ih g (n / 10) (by omega) (by omega)]

/-- The recursion equation of the digit printer. -/
theorem natDigits_eq (n : Nat) :
    natDigits n = if n < 10 then [Char.ofNat (48 + n)]
      else natDigits (n / 10) ++ [Char.ofNat (48 + n % 10)] := by
  rw [natDigits, natDigitsGo]
  by_cases h10 : n < 10
  · rw [if_pos h10, if_pos h10]
  · rw [if_neg h10, if_neg h10]
    have hdiv : n / 10 < n := Nat.div_lt_self (by omega) (by decide)
    rw [natDigits, natDigitsGo_fuel n (n / 10 + 1) (n / 10) (by omega) (by omega)]

theorem natDigits_ne_nil (n : Nat) : natDigits n ≠ [] := by
  rw [natDigits_eq]
  split <;> simp

theorem natDigits_all_digit (n : Nat) : ∀ c ∈ natDigits n, c.isDigit = true := by
  induction n using Nat.strong_induction_on with
  | _ n ih =>
    rw [natDigits_eq]
    split
    · next h =>
      intro c hc
      rw [List.mem_singleton] at hc
      subst hc
      exact char_ofNat_digit_isDigit n h
    · next h =>
      intro c hc
      rcases List.mem_append.mp hc with hc | hc
      · exact ih (n / 10) (Nat.div_lt_self (by omega) (by decide)) c hc
      · rw [List.mem_singleton] at hc
        subst hc
        exact char_ofNat_digit_isDigit (n % 10) (Nat.mod_lt _ (by decide))

theorem digitsToNat_append_singleton (l : List Char) (c : Char) :
    digitsToNat (l ++ [c]) = 10 * digitsToNat l + (c.toNat - 48) := by
  simp only [digitsToNat, List.foldl_append, List.foldl_cons, List.foldl_nil]
  omega

theorem digitsToNat_natDigits (n : Nat) : digitsToNat (natDigits n) = n := by
  induction n using Nat.strong_induction_on with
  | _ n ih =>
    rw [natDigits_eq]
    split
    · next h =>
      simp only [digitsToNat, List.foldl_cons, List.foldl_nil]
      rw [char_ofNat_digit_toNat n h]
      omega
    · next h =>
      rw [digitsToNat_append_singleton,
        ih (n / 10) (Nat.div_lt_self (by omega) (by decide)),
        char_ofNat_digit_toNat (n % 10) (Nat.mod_lt _ (by decide))]
      omega

theorem digitsToNat_replicate_zero (k : Nat) (l : List Char) :
    digitsToNat (List.replicate k '0' ++ l) = digitsToNat l := by
  induction k with
  | zero => rfl
  | succ k ih =>
    rw [List.replicate_succ, List.cons_append]
    simp only [digitsToNat, List.foldl_cons] at ih ⊢
    have h0 : 0 * 10 + ('0'.toNat - 48) = 0 := by decide
    rw [h0]
    exact ih

theorem splitDot_of_no_dot (l : List Char) (h : ∀ c ∈ l, ¬c = '.') :
    splitDot l = (l, none) := by
  induction l with
  | nil => rfl
  | cons c r ih =>
    have hr := ih (fun x hx => h x (List.mem_cons_of_mem _ hx))
    simp [splitDot, h c (List.mem_cons_self c r), hr]

theorem splitDot_append_dot (a b : List Char) (h : ∀ c ∈ a, ¬c = '.') :
    splitDot (a ++ '.' :: b) = (a, some b) := by
  induction a with
  | nil => simp [splitDot]
  | cons c r ih =>
    have hr := ih (fun x hx => h x (List.mem_cons_of_mem _ hx))
    simp [splitDot, h c (List.mem_cons_self c r), hr]

theorem parseUnsignedDec_int (ds : List Char) (hall : ds.all Char.isDigit = true)
    (hne : ds ≠ []) : parseUnsignedDec ds = some ⟨(digitsToNat ds : Int), 0⟩ := by
  have hnd : ∀ c ∈ ds, ¬c = '.' :=
    fun c hc => isDigit_ne_dot (List.all_eq_true.mp hall c hc)
  rw [parseUnsignedDec, splitDot_of_no_dot ds hnd]
  simp [hall, hne]

theorem parseUnsignedDec_frac (ip fp : List Char) (hip : ip.all Char.isDigit = true)
    (hfp : fp.all Char.isDigit = true) (hfpne : fp ≠ []) :
    parseUnsignedDec (ip ++ '.' :: fp) =
      some ⟨(digitsToNat (ip ++ fp) : Int), fp.length⟩ := by
  have hnd : ∀ c ∈ ip, ¬c = '.' :=
    fun c hc => isDigit_ne_dot (List.all_eq_true.mp hip c hc)
  rw [parseUnsignedDec, splitDot_append_dot ip fp hnd]
  simp [hip, hfp, hfpne]

theorem parseDecChars_digit_head (c : Char) (rest : List Char)
    (hc : c.isDigit = true) :
    parseDecChars (c :: rest) = parseUnsignedDec (c :: rest) := by
  rw [parseDecChars, if_neg (isDigit_ne_dash hc), if_neg (isDigit_ne_plus hc)]

theorem padDigits_all (a s : Nat) : (padDigits a s).all Char.isDigit = true := by
  rw [List.all_eq_true, padDigits]
  intro c hc
  split at hc
  · exact natDigits_all_digit a c hc
  · rcases List.mem_append.mp hc with hc | hc
    · rw [List.eq_of_mem_replicate hc]
      decide
    · exact natDigits_all_digit a c hc

theorem padDigits_len (a s : Nat) : s + 1 ≤ (padDigits a s).length := by
  rw [padDigits]
  split
  · next h => exact h
  · next h =>
    rw [List.length_append, List.length_replicate]
    have h1 : (natDigits a).length ≠ 0 := by
      intro h0
      exact natDigits_ne_nil a (List.length_eq_zero.mp h0)
    omega

theorem padDigits_val (a s : Nat) : digitsToNat (padDigits a s) = a := by
  rw [padDigits]
  split
  · exact digitsToNat_natDigits a
  · rw [digitsToNat_replicate_zero]
    exact digitsToNat_natDigits a

theorem parseDecChars_decChars (d : Dec) : parseDecChars (decChars d) = some d := by
  obtain ⟨m, s⟩ := d
  have hall := padDigits_all m.natAbs s
  have hlen := padDigits_len m.natAbs s
  have hval := padDigits_val m.natAbs s
  set ds := padDigits m.natAbs s with hds
  set ip := ds.take (ds.length - s) with hip
  set fp := ds.drop (ds.length - s) with hfp
  have hipfp : ip ++ fp = ds := List.take_append_drop _ _
  have hip_all : ip.all Char.isDigit = true := by
    rw [List.all_eq_true] at hall ⊢
    exact fun c hc => hall c (List.mem_of_mem_take hc)
  have hfp_all : fp.all Char.isDigit = true := by
    rw [List.all_eq_true] at hall ⊢
    exact fun c hc => hall c (List.mem_of_mem_drop hc)
  have hfp_len : fp.length = s := by
    rw [hfp, List.length_drop]
    omega
  have hip_ne : ip ≠ [] := by
    have h1 : ip.length = ds.length - s := by
      rw [hip, List.length_take]
      omega
    intro hnil
    rw [hnil] at h1
    simp at h1
    omega
  have hval_ipfp : digitsToNat (ip ++ fp) = m.natAbs := by rw [hipfp]; exact hval
  show parseDecChars ((if m < 0 then ['-'] else []) ++ ip ++
      (if s = 0 then [] else '.' :: fp)) = some ⟨m, s⟩
  by_cases hs : s = 0
  · subst hs
    have hip_eq : ip = ds := by
      rw [hip, Nat.sub_zero, List.take_length]
    rw [if_pos rfl, List.append_nil]
    by_cases hm : m < 0
    · rw [if_pos hm, List.singleton_append, parseDecChars, if_pos rfl,
        hip_eq, parseUnsignedDec_int ds hall (by intro h0; rw [h0] at hlen; simp at hlen)]
      simp only [Option.map_some']
      congr 1
      rw [hval]
      congr 1
      omega
    · rw [if_neg hm, List.nil_append]
      obtain ⟨c, t, hct⟩ := List.exists_cons_of_ne_nil hip_ne
      have hc_digit : c.isDigit = true := by
        rw [List.all_eq_true] at hip_all
        exact hip_all c (by rw [hct]; exact List.mem_cons_self c t)
      rw [hct, parseDecChars_digit_head c t hc_digit, ← hct, hip_eq,
        parseUnsignedDec_int ds hall (by intro h0; rw [h0] at hlen; simp at hlen)]
      congr 1
      rw [hval]
      congr 1
      omega
  · rw [if_neg hs]
    have hfp_ne : fp ≠ [] := by
      intro h0
      rw [h0] at hfp_len
      simp at hfp_len
      omega
    by_cases hm : m < 0
    · rw [if_pos hm, List.singleton_append, List.cons_append, parseDecChars, if_pos rfl,
        parseUnsignedDec_frac ip fp hip_all hfp_all hfp_ne]
      simp only [Option.map_some']
      congr 1
      rw [hval_ipfp, hfp_len]
      congr 1
      omega
    · rw [if_neg hm, List.nil_append]
      obtain ⟨c, t, hct⟩ := List.exists_cons_of_ne_nil hip_ne
      have hc_digit : c.isDigit = true := by
        rw [List.all_eq_true] at hip_all
        exact hip_all c (by rw [hct]; exact List.mem_cons_self c t)
      rw [hct, List.cons_append, parseDecChars_digit_head c (t ++ '.' :: fp) hc_digit,
        ← List.cons_append, ← hct,
        parseUnsignedDec_frac ip fp hip_all hfp_all hfp_ne]
      congr 1
      rw [hval_ipfp, hfp_len]
      congr 1
      omega

/-- Round trip through the database TEXT column: printing a decimal and
parsing it back is the identity. -/
theorem decimal_from_str_decToString (d : Dec) :
    decimal_from_str (decToString d) = some d := by
  rw [decimal_from_str, decToString, List.toList_asString]
  exact parseDecChars_decChars d

-- ── Decimal values: addition and sums ────────────────────────────────────────

theorem Dec.add_val (a b : Dec) : (Dec.add a b).val = a.val + b.val := by
  rw [Dec.add]
  split
  · next h =>
    have hb : (10 : ℚ) ^ b.s = 10 ^ (b.s - a.s) * 10 ^ a.s := by
      rw [← pow_add]
      congr 1
      omega
    rw [Dec.val, Dec.val, Dec.val]
    simp only
    rw [hb]
    push_cast
    have h1 : (10 : ℚ) ^ (b.s - a.s) ≠ 0 := pow_ne_zero _ (by norm_num)
    have h2 : (10 : ℚ) ^ a.s ≠ 0 := pow_ne_zero _ (by norm_num)
    field_simp
    ring
  · next h =>
    have hb : (10 : ℚ) ^ a.s = 10 ^ (a.s - b.s) * 10 ^ b.s := by
      rw [← pow_add]
      congr 1
      omega
    rw [Dec.val, Dec.val, Dec.val]
    simp only
    rw [hb]
    push_cast
    have h1 : (10 : ℚ) ^ (a.s - b.s) ≠ 0 := pow_ne_zero _ (by norm_num)
    have h2 : (10 : ℚ) ^ b.s ≠ 0 := pow_ne_zero _ (by norm_num)
    field_simp
    ring

theorem decZero_val : decZero.val = 0 := by
  rw [decZero, Dec.val]
  norm_num

theorem foldl_add_val (l : List Dec) (z : Dec) :
    (l.foldl Dec.add z).val = z.val + (l.map Dec.val).sum := by
  induction l generalizing z with
  | nil => simp
  | cons a t ih =>
    rw [List.foldl_cons, ih, Dec.add_val, List.map_cons, List.sum_cons]
    ring

theorem sum_filterMap_parse (l : List String) :
    ((l.filterMap decimal_from_str).map Dec.val).sum = (l.map decodedVal).sum := by
  induction l with
  | nil => rfl
  | cons a t ih =>
    cases h : decimal_from_str a with
    | none =>
      rw [List.filterMap_cons_none h, List.map_cons, List.sum_cons, ih, decodedVal, h]
      rw [Option.getD_none, decZero_val, zero_add]
    | some d =>
      rw [List.filterMap_cons_some h, List.map_cons, List.map_cons,
        List.sum_cons, List.sum_cons, ih, decodedVal, h, Option.getD_some]

/-- The decimal the recompute folds up denotes exactly the rational sum of the
decoded amounts of the year's contributions. -/
theorem year_sum_val_eq (cs : List ContributionRow) (y : Int) :
    (year_sum cs y).val = year_sum_val cs y := by
  rw [year_sum, year_sum_val, foldl_add_val, decZero_val, zero_add,
    sum_filterMap_parse, List.map_map]
  rfl

/-- Decoding a freshly printed total gives back its value. -/
theorem decodedVal_decToString (d : Dec) : decodedVal (decToString d) = d.val := by
  rw [decodedVal, decimal_from_str_decToString, Option.getD_some]

-- ── Year sums under row changes ──────────────────────────────────────────────

theorem year_sum_append_ne (cs : List ContributionRow) (row : ContributionRow)
    (z : Int) (h : row.recorded_year ≠ z) :
    year_sum (cs ++ [row]) z = year_sum cs z := by
  rw [year_sum, year_sum, List.filter_append]
  have hrow : [row].filter (fun c => c.recorded_year = z) = [] := by
    simp [List.filter_cons, h]
  rw [hrow, List.append_nil]

theorem year_sum_filter_id_ne (cs : List ContributionRow) (i y z : Int)
    (h : ∀ c ∈ cs, c.id = i → c.recorded_year = y) (hz : z ≠ y) :
    year_sum (cs.filter (fun c => c.id ≠ i)) z = year_sum cs z := by
  rw [year_sum, year_sum]
  have hfil : (cs.filter (fun c => c.id ≠ i)).filter (fun c => c.recorded_year = z) =
      cs.filter (fun c => c.recorded_year = z) := by
    induction cs with
    | nil => rfl
    | cons c t ih =>
      have iht := ih (fun d hd hdi => h d (List.mem_cons_of_mem _ hd) hdi)
      by_cases hci : c.id = i
      · have hcy : c.recorded_year = y := h c (List.mem_cons_self c t) hci
        have hcz : ¬c.recorded_year = z := by rw [hcy]; exact fun he => hz he.symm
        have e1 : (c :: t).filter (fun d => d.id ≠ i) = t.filter (fun d => d.id ≠ i) := by
          simp [List.filter_cons, hci]
        have e2 : (c :: t).filter (fun d => d.recorded_year = z) =
            t.filter (fun d => d.recorded_year = z) := by
          simp [List.filter_cons, hcz]
        rw [e1, e2, iht]
      · have e1 : (c :: t).filter (fun d => d.id ≠ i) =
            c :: t.filter (fun d => d.id ≠ i) := by
          simp [List.filter_cons, hci]
        rw [e1, List.filter_cons, List.filter_cons, iht]
  rw [hfil]

-- ── Effect of each operation on the store invariants ─────────────────────────

theorem refresh_contributions (st : Store) (y : Int) :
    (refresh_year_total st y).contributions = st.contributions := by
  rw [refresh_year_total]
  split <;> rfl

theorem refresh_counters (st : Store) (y : Int) :
    (refresh_year_total st y).nextContribId = st.nextContribId := by
  rw [refresh_year_total]
  split <;> rfl

theorem idsInv_refresh (st : Store) (y : Int) (h : IdsInv st) :
    IdsInv (refresh_year_total st y) := by
  rw [IdsInv, refresh_contributions, refresh_counters]
  exact h

theorem totalsInv_refresh (stA stB : Store) (y : Int)
    (hsum : stB.summaries = stA.summaries)
    (hcon : TotalsInv stA)
    (hside : ∀ z, z ≠ y → year_sum stB.contributions z = year_sum stA.contributions z) :
    TotalsInv (refresh_year_total stB y) := by
  intro r hr
  rw [refresh_contributions]
  rw [refresh_year_total] at hr
  by_cases hany : stB.summaries.any (fun q => q.year = y) = true
  · rw [if_pos hany] at hr
    simp only at hr
    obtain ⟨r0, hr0, hmap⟩ := List.mem_map.mp hr
    by_cases hy : r0.year = y
    · rw [if_pos hy] at hmap
      subst hmap
      simp only
      rw [hy]
    · rw [if_neg hy] at hmap
      subst hmap
      rw [hside r0.year hy]
      exact hcon r0 (hsum ▸ hr0)
  · rw [if_neg hany] at hr
    simp only at hr
    rcases List.mem_append.mp hr with hr | hr
    · have hy : ¬r.year = y := by
        intro he
        exact hany (List.any_eq_true.mpr ⟨r, hr, by simp [he]⟩)
      rw [hside r.year hy]
      exact hcon r (hsum ▸ hr)
    · rw [List.mem_singleton] at hr
      subst hr
      rfl

theorem goodStore_refresh (st : Store) (y : Int) (h : GoodStore st) :
    GoodStore (refresh_year_total st y) :=
  ⟨idsInv_refresh st y h.1,
    totalsInv_refresh st st y rfl h.2 (fun _ _ => rfl)⟩

theorem totalsInv_flags (st : Store) (g : YearSummaryRow → YearSummaryRow)
    (hgt : ∀ r, (g r).total = r.total) (hgy : ∀ r, (g r).year = r.year)
    (h : TotalsInv st) :
    TotalsInv { st with summaries := st.summaries.map g } := by
  intro r hr
  obtain ⟨r0, hr0, hmap⟩ := List.mem_map.mp hr
  subst hmap
  rw [hgt, hgy]
  exact h r0 hr0

theorem close_year_state (st : Store) (y : Int) (note : Option String)
    (now : String) :
    (close_year st y note now).2 =
      { refresh_year_total st y with
        summaries := (refresh_year_total st y).summaries.map (fun r =>
          if r.year = y then { r with closed_at := some now, note := note } else r) } := by
  simp only [close_year]
  split <;> rfl

theorem goodStore_close_year (st : Store) (y : Int) (note : Option String)
    (now : String) (h : GoodStore st) :
    GoodStore ((close_year st y note now).2) := by
  rw [close_year_state]
  have h1 := goodStore_refresh st y h
  exact ⟨h1.1, totalsInv_flags (refresh_year_total st y) _
    (fun r => by split <;> rfl) (fun r => by split <;> rfl) h1.2⟩

theorem get_member_state (st : Store) (id : Int) : (get_member st id).2 = st := by
  rw [get_member]
  cases st.members.find? (fun m => m.id = id) <;> rfl

theorem goodStore_members_only (st : Store) (ms : List Member) (k : Int)
    (h : GoodStore st) :
    GoodStore { st with members := ms, nextMemberId := k } :=
  ⟨h.1, h.2⟩

theorem goodStore_create_member (st : Store) (input : MemberInput) (now : String)
    (h : GoodStore st) : GoodStore ((create_member st input now).2) := by
  rw [create_member]
  split
  · exact h
  · split
    · exact h
    · split
      · exact h
      · exact ⟨h.1, h.2⟩

theorem goodStore_update_member (st : Store) (id : Int) (input : MemberInput)
    (h : GoodStore st) : GoodStore ((update_member st id input).2) := by
  rw [update_member]
  split
  · exact h
  · split
    · exact h
    · split
      · exact h
      · rw [get_member_state]
        exact ⟨h.1, h.2⟩

theorem goodStore_transfer_members (st : Store) (ids : List Int) (t : String)
    (h : GoodStore st) : GoodStore ((transfer_members st ids t).2) := by
  rw [transfer_members]
  split
  · exact h
  · split
    · exact h
    · exact ⟨h.1, h.2⟩

theorem reopen_year_state (st : Store) (y : Int) :
    (reopen_year st y).2 =
      { st with summaries := st.summaries.map (fun r =>
          if r.year = y then { r with closed_at := none, note := none } else r) } := by
  simp only [reopen_year]
  split <;> rfl

theorem goodStore_reopen_year (st : Store) (y : Int) (h : GoodStore st) :
    GoodStore ((reopen_year st y).2) := by
  rw [reopen_year_state]
  exact ⟨h.1, totalsInv_flags st _
    (fun r => by split <;> rfl) (fun r => by split <;> rfl) h.2⟩

theorem goodStore_create_contribution (st : Store) (input : ContributionInput)
    (h : GoodStore st) : GoodStore ((create_contribution st input).2) := by
  rw [create_contribution]
  cases hd : decimal_from_str_96 (trimRust input.amount) with
  | none => exact h
  | some amount =>
    simp only
    split
    · exact h
    · cases hy : parse_payment_date_year_chrono input.payment_date with
      | none => exact h
      | some ry =>
        simp only
        split
        · set row : ContributionRow :=
            { id := st.nextContribId
              member_id := input.member_id
              payment_date := input.payment_date
              period := input.period
              amount := decToString amount
              recorded_year := ry } with hrow
          set st1 := { st with contributions := st.contributions ++ [row],
                               nextContribId := st.nextContribId + 1 } with hst1
          have hids : IdsInv st1 := by
            constructor
            · intro c hc
              rcases List.mem_append.mp hc with hc | hc
              · have := h.1.1 c hc
                simp only [hst1]
                omega
              · rw [List.mem_singleton] at hc
                subst hc
                simp only [hst1, hrow]
                omega
            · simp only [hst1, List.map_append]
              rw [List.nodup_append]
              refine ⟨h.1.2, List.nodup_singleton _, ?_⟩
              intro x hx
              obtain ⟨c, hc, hcx⟩ := List.mem_map.mp hx
              have := h.1.1 c hc
              simp only [List.map_cons, List.map_nil, List.mem_singleton, hrow]
              omega
          have htot : TotalsInv (refresh_year_total st1 ry) := by
            refine totalsInv_refresh st st1 ry rfl h.2 ?_
            intro z hz
            exact year_sum_append_ne st.contributions row z (by simp [hrow]; omega)
          exact ⟨idsInv_refresh st1 ry hids, htot⟩
        · exact h

theorem goodStore_delete_contribution (st : Store) (id : Int)
    (h : GoodStore st) : GoodStore ((delete_contribution st id).2) := by
  rw [delete_contribution]
  cases hf : st.contributions.find? (fun c => c.id = id) with
  | none => exact h
  | some c =>
    simp only
    have hcmem : c ∈ st.contributions := List.mem_of_find?_eq_some hf
    have hcid : c.id = id := by
      have := List.find?_some hf
      simpa using this
    set st1 := { st with contributions :=
        st.contributions.filter (fun d => d.id ≠ id) } with hst1
    have hids : IdsInv st1 := by
      constructor
      · intro d hd
        exact h.1.1 d (List.mem_of_mem_filter hd)
      · exact (List.Sublist.map (fun d => d.id)
          (List.filter_sublist st.contributions)).nodup h.1.2
    have hsame : ∀ d ∈ st.contributions, d.id = id → d.recorded_year = c.recorded_year := by
      intro d hd hdi
      have hde : d = c :=
        List.inj_on_of_nodup_map h.1.2 hd hcmem (by rw [hdi, hcid])
      rw [hde]
    have htot : TotalsInv (refresh_year_total st1 c.recorded_year) := by
      refine totalsInv_refresh st st1 c.recorded_year rfl h.2 ?_
      intro z hz
      exact year_sum_filter_id_ne st.contributions id c.recorded_year z hsame hz
    exact ⟨idsInv_refresh st1 c.recorded_year hids, htot⟩

theorem goodStore_check_close (st : Store) (p : Int) (now : String)
    (h : GoodStore st) : GoodStore ((check_and_close_previous_year st p now).2) := by
  simp only [check_and_close_previous_year]
  split
  · exact h
  · split
    · next summ st2 heq =>
      have h2 := goodStore_close_year (refresh_year_total st p) p
        (some (closing_note p
          (((get_year_summary (refresh_year_total st p) p).map (fun s => s.total)).getD
            decZero))) now (goodStore_refresh st p h)
      rw [heq] at h2
      exact h2
    · next e st2 heq =>
      have h2 := goodStore_close_year (refresh_year_total st p) p
        (some (closing_note p
          (((get_year_summary (refresh_year_total st p) p).map (fun s => s.total)).getD
            decZero))) now (goodStore_refresh st p h)
      rw [heq] at h2
      exact h2

theorem goodStore_emptyStore : GoodStore emptyStore := by
  refine ⟨⟨?_, ?_⟩, ?_⟩
  · intro c hc
    exact absurd hc (List.not_mem_nil c)
  · exact List.nodup_nil
  · intro r hr
    exact absurd hr (List.not_mem_nil r)

/-- Every store reachable without member deletions keeps sound id counters and
current year totals. -/
theorem goodStore_reachableNoMemberDelete (st : Store)
    (h : ReachableNoMemberDelete st) : GoodStore st := by
  induction h with
  | init => exact goodStore_emptyStore
  | step st op hs hop ih =>
    cases op with
    | create_member input now => exact goodStore_create_member st input now ih
    | update_member id input => exact goodStore_update_member st id input ih
    | delete_member id => exact absurd hop (by rw [Op.isDeleteMember]; simp)
    | transfer_members ids t => exact goodStore_transfer_members st ids t ih
    | create_contribution input => exact goodStore_create_contribution st input ih
    | delete_contribution id => exact goodStore_delete_contribution st id ih
    | close_year y note now => exact goodStore_close_year st y note now ih
    | reopen_year y => exact goodStore_reopen_year st y ih
    | check_and_close_previous_year p now => exact goodStore_check_close st p now ih

-- ── Claim C1 ─────────────────────────────────────────────────────────────────

/-- C1, counterexample: the claim fails on the code.  The store reached by
creating a member, recording a 100-Ariary contribution for 2024 and then
deleting the member is reachable, yet its 2024 summary still stores total 100
while the exact decimal sum of the remaining 2024 contributions is 0 —
`delete_member` cascades the contribution rows away without refreshing the
year total. -/
theorem c1_total_invariant_fails_on_member_delete :
    Reachable storeAfterMemberDelete ∧
    storeAfterMemberDelete.summaries = [⟨2024, "100", none, none⟩] ∧
    storeAfterMemberDelete.contributions = [] ∧
    decodedVal "100" = 100 ∧
    year_sum_val ([] : List ContributionRow) 2024 = 0 ∧
    (100 : ℚ) ≠ 0 := by
  refine ⟨?_, by decide, by decide, ?_, by simp [year_sum_val], by norm_num⟩
  · exact Reachable.step _ (.delete_member 1)
      (Reachable.step _ (.create_contribution ⟨1, "2024-05-01", "2024", "100"⟩)
        (Reachable.step _ (.create_member sampleMemberInput "2024-01-01T00:00:00")
          Reachable.init))
  · rw [decodedVal, show decimal_from_str "100" = some ⟨100, 0⟩ from by decide,
      Option.getD_some, Dec.val]
    norm_num

/-- C1 (amended): for every store reachable by a sequence of Repository
operations containing no `delete_member`, every existing `year_summaries` row
stores exactly the decimal sum of the amounts of the contributions whose
recorded_year matches (decimal equality of the decoded values, no floating
rounding).  `delete_member` is excluded because its cascade removes
contribution rows without refreshing the year total. -/
theorem c1_total_invariant_no_member_delete (st : Store)
    (h : ReachableNoMemberDelete st) :
    ∀ r ∈ st.summaries, decodedVal r.total = year_sum_val st.contributions r.year := by
  intro r hr
  have hs := (goodStore_reachableNoMemberDelete st h).2 r hr
  rw [hs, decodedVal_decToString, year_sum_val_eq]

/-- C1, witness: the amended invariant evaluated on the concrete store with
one member and one 100-Ariary contribution of 2024. -/
theorem c1_total_invariant_witness :
    ReachableNoMemberDelete storeOneContribution ∧
    ∀ r ∈ storeOneContribution.summaries,
      decodedVal r.total = year_sum_val storeOneContribution.contributions r.year := by
  have hreach : ReachableNoMemberDelete storeOneContribution :=
    ReachableNoMemberDelete.step _
      (.create_contribution ⟨1, "2024-05-01", "2024", "100"⟩)
      (ReachableNoMemberDelete.step _
        (.create_member sampleMemberInput "2024-01-01T00:00:00")
        ReachableNoMemberDelete.init rfl) rfl
  exact ⟨hreach, c1_total_invariant_no_member_delete storeOneContribution hreach⟩

-- ── Claim C9 ─────────────────────────────────────────────────────────────────

theorem format_total_f0_zero : format_total_f0 0 = "0" := by
  rw [format_total_f0]
  have h0 : round_half_even 0 = 0 := by
    rw [round_half_even]
    norm_num
  rw [h0]
  decide

/-- C9 (amended): `get_members_by_type_with_total` returns the members of the
category ordered by full name ascending, one record per member, whose
total_contributions string is the aggregated sum of that member's contribution
amounts formatted with zero decimal places — which rounds to the nearest
integer (ties to even) rather than truncating the fractional part — and "0"
for a member with no contributions. -/
theorem c9_members_with_total_spec (st : Store) (t : String) :
    ((get_members_by_type_with_total st t).map (fun r => r.full_name)).Sorted (· ≤ ·) ∧
    ((get_members_by_type_with_total st t).map (fun r => r.id)).Perm
      ((st.members.filter (fun m => m.member_type = t)).map (fun m => m.id)) ∧
    (∀ r ∈ get_members_by_type_with_total st t,
      r.total_contributions = format_total_f0 (member_total st.contributions r.id)) ∧
    (∀ r ∈ get_members_by_type_with_total st t,
      (∀ c ∈ st.contributions, c.member_id ≠ r.id) →
      r.total_contributions = "0") := by
  have hsorted : ((st.members.filter (fun m => m.member_type = t)).insertionSort
      byName).Sorted byName :=
    List.sorted_insertionSort byName _
  have hperm := List.perm_insertionSort byName
    (st.members.filter (fun m => m.member_type = t))
  refine ⟨?_, ?_, ?_, ?_⟩
  · simp only [get_members_by_type_with_total, List.map_map]
    exact List.pairwise_map.mpr (hsorted.imp (fun hab => hab))
  · simp only [get_members_by_type_with_total, List.map_map]
    exact hperm.map (fun m => m.id)
  · intro r hr
    simp only [get_members_by_type_with_total] at hr
    obtain ⟨m, hm, rfl⟩ := List.mem_map.mp hr
    rfl
  · intro r hr hnone
    simp only [get_members_by_type_with_total] at hr
    obtain ⟨m, hm, rfl⟩ := List.mem_map.mp hr
    have hfil : st.contributions.filter (fun c => c.member_id = m.id) = [] :=
      List.filter_eq_nil_iff.mpr (fun c hc => by simpa using hnone c hc)
    show format_total_f0 (member_total st.contributions m.id) = "0"
    rw [member_total, hfil]
    simp only [List.map_nil, List.sum_nil]
    exact format_total_f0_zero

/-- C9, counterexample: the claim demands truncation of the exact decimal sum,
but the code formats with zero decimal places, which rounds.  For the single
contribution of amount "1.5" the aggregated total is 3/2; the produced string
is "2" (round half to even) while the integer part of the exact sum is "1". -/
theorem c9_total_rounds_instead_of_truncating :
    member_total storeFractionalContribution.contributions 1 = 3 / 2 ∧
    (get_members_by_type_with_total storeFractionalContribution "Communiant").map
      (fun r => r.total_contributions) =
      [format_total_f0 (member_total storeFractionalContribution.contributions 1)] ∧
    format_total_f0 (3 / 2) = "2" ∧
    intToString ⌊(3 / 2 : ℚ)⌋ = "1" ∧
    ("2" : String) ≠ "1" := by
  have hcs : storeFractionalContribution.contributions =
      [⟨1, 1, "2024-05-01", "2024", "1.5", 2024⟩] := by decide
  have hfl : ⌊(3 / 2 : ℚ)⌋ = 1 := by
    rw [Int.floor_eq_iff]
    norm_num
  refine ⟨?_, rfl, ?_, ?_, by decide⟩
  · rw [hcs, member_total]
    simp only [List.filter_cons, List.filter_nil, decide_eq_true_eq, if_true]
    simp only [List.map_cons, List.map_nil, List.sum_cons, List.sum_nil]
    rw [cast_real, show decimal_from_str "1.5" = some ⟨15, 1⟩ from by decide,
      Option.getD_some, Dec.val]
    norm_num
  · rw [format_total_f0]
    have h2 : round_half_even (3 / 2) = 2 := by
      rw [round_half_even]
      simp only [hfl]
      norm_num
    rw [h2]
    decide
  · rw [hfl]
    decide

/-- C9, witness: the amended description evaluated on the one-member store
with no contributions — a single record, total string "0". -/
theorem c9_members_with_total_witness :
    ((get_members_by_type_with_total storeOneMember "Communiant").map
      (fun r => r.full_name)).Sorted (· ≤ ·) ∧
    (∀ r ∈ get_members_by_type_with_total storeOneMember "Communiant",
      r.total_contributions = "0") := by
  have h := c9_members_with_total_spec storeOneMember "Communiant"
  refine ⟨h.1, fun r hr => h.2.2.2 r hr ?_⟩
  intro c hc
  exact absurd hc (List.not_mem_nil c)

-- ── Claim C10 ────────────────────────────────────────────────────────────────

/-- C10: repository reads never fail on corrupt amount text.  The contribution
row mapper and the year-summary row mapper substitute `Decimal::ZERO` for an
unparseable amount or total, and the year-total recompute silently omits an
unparseable amount from the sum (appending a contribution row whose amount
does not parse leaves the recomputed year total unchanged). -/
theorem c10_unparseable_amounts_read_as_zero :
    (∀ r : ContributionRow, decimal_from_str r.amount = none →
      (map_contribution r).amount = decZero) ∧
    (∀ r : YearSummaryRow, decimal_from_str r.total = none →
      (map_year_summary r).total = decZero) ∧
    (∀ (cs : List ContributionRow) (row : ContributionRow) (y : Int),
      decimal_from_str row.amount = none →
      year_sum (cs ++ [row]) y = year_sum cs y) := by
  refine ⟨?_, ?_, ?_⟩
  · intro r h
    rw [map_contribution]
    simp only
    rw [h, Option.getD_none]
  · intro r h
    rw [map_year_summary]
    simp only
    rw [h, Option.getD_none]
  · intro cs row y h
    rw [year_sum, year_sum, List.filter_append]
    by_cases hy : row.recorded_year = y
    · have hone : [row].filter (fun c => c.recorded_year = y) = [row] := by
        simp [List.filter_cons, hy]
      rw [hone, List.map_append, List.filterMap_append]
      simp [h]
    · have hnone : [row].filter (fun c => c.recorded_year = y) = [] := by
        simp [List.filter_cons, hy]
      rw [hnone, List.append_nil]

/-- C10, witness: the zero-substitution and omission behaviour evaluated on a
concrete corrupt amount text. -/
theorem c10_unparseable_amounts_witness :
    (map_contribution ⟨7, 1, "2024-05-01", "2024", "garbage", 2024⟩).amount = decZero ∧
    (map_year_summary ⟨2024, "garbage", none, none⟩).total = decZero ∧
    year_sum ([⟨1, 1, "2024-05-01", "2024", "100", 2024⟩] ++
      [⟨7, 1, "2024-05-01", "2024", "garbage", 2024⟩]) 2024 =
      year_sum [⟨1, 1, "2024-05-01", "2024", "100", 2024⟩] 2024 :=
  ⟨c10_unparseable_amounts_read_as_zero.1 _ (by decide),
   c10_unparseable_amounts_read_as_zero.2.1 _ (by decide),
   c10_unparseable_amounts_read_as_zero.2.2 _ _ _ (by decide)⟩

-- ── Claim C2 ─────────────────────────────────────────────────────────────────

/-- C3, counterexample: the claim quantifies over every input whose card
number duplicates an existing one, but an input that also has a blank full
name fails the emptiness validation first — a Validation error, not the
storage Conflict (unique-violation) error the claim demands. -/
theorem c3_duplicate_card_not_always_conflict :
    (∃ m ∈ storeOneMember.members, m.card_number = "C001") ∧
    (create_member storeOneMember
        ⟨"C001", "", none, none, none, "F", "Communiant"⟩ "T").1 =
      .error (.validation "Le nom complet est requis.") ∧
    ∀ e, (create_member storeOneMember
        ⟨"C001", "", none, none, none, "F", "Communiant"⟩ "T").1 ≠ .error (.db e) := by
  refine ⟨by decide, by decide, ?_⟩
  intro e he
  have : (AppErr.validation "Le nom complet est requis.") = .db e := by
    have h1 : (create_member storeOneMember
        ⟨"C001", "", none, none, none, "F", "Communiant"⟩ "T").1 =
        .error (.validation "Le nom complet est requis.") := by decide
    rw [h1] at he
    exact (Except.error.injEq _ _).mp he
  exact absurd this (by simp)

/-- C3 (amended): for every store holding a member with card number K and
every input passing the emptiness validation whose card number is also K,
`create_member` fails with the storage Conflict error (the UNIQUE violation
surfaced as a Db error) and leaves the store unchanged. -/
theorem c3_duplicate_card_conflict (st : Store) (input : MemberInput) (now : String)
    (hcard : strIsEmpty (trimStr input.card_number) = false)
    (hname : strIsEmpty (trimStr input.full_name) = false)
    (hdup : st.members.any (fun m => m.card_number = input.card_number) = true) :
    create_member st input now = (.error (.db .uniqueViolation), st) := by
  rw [create_member, if_neg (by simp [hcard]), if_neg (by simp [hname]), if_pos hdup]

/-- C3, witness: the amended Conflict behaviour on the concrete store with
card C001 taken. -/
theorem c3_duplicate_card_conflict_witness :
    create_member storeOneMember
        ⟨"C001", "Bob", none, none, none, "M", "Cathekomen"⟩ "T2" =
      (.error (.db .uniqueViolation), storeOneMember) :=
  c3_duplicate_card_conflict storeOneMember
    ⟨"C001", "Bob", none, none, none, "M", "Cathekomen"⟩ "T2"
    (by decide) (by decide) (by decide)

-- ── Claim C4 ─────────────────────────────────────────────────────────────────

/-- After a refresh the year's summary row exists and stores the printed
recomputed sum. -/
theorem refresh_find (st : Store) (y : Int) :
    ∃ r, (refresh_year_total st y).summaries.find? (fun q => q.year = y) = some r ∧
      r.total = decToString (year_sum st.contributions y) ∧ r.year = y := by
  rw [refresh_year_total]
  by_cases hany : st.summaries.any (fun q => q.year = y) = true
  · rw [if_pos hany]
    simp only
    obtain ⟨r0, hr0, hp0⟩ := List.any_eq_true.mp hany
    have hy0 : r0.year = y := by simpa using hp0
    have hex : (st.summaries.find? (fun q => q.year = y)).isSome = true :=
      List.find?_isSome.mpr ⟨r0, hr0, by simpa using hy0⟩
    obtain ⟨r1, hr1⟩ := Option.isSome_iff_exists.mp hex
    have hy1 : r1.year = y := by
      have := List.find?_some hr1
      simpa using this
    have hcomp : ((fun q : YearSummaryRow => decide (q.year = y)) ∘
        (fun q : YearSummaryRow =>
          if q.year = y then
            { q with total := decToString (year_sum st.contributions y) } else q)) =
        fun q : YearSummaryRow => decide (q.year = y) := by
      funext q
      rw [Function.comp_apply]
      split <;> rfl
    refine ⟨{ r1 with total := decToString (year_sum st.contributions y) }, ?_, rfl, hy1⟩
    rw [List.find?_map, hcomp, hr1, Option.map_some', if_pos hy1]
  · rw [if_neg hany]
    simp only
    have hnone : st.summaries.find? (fun q => q.year = y) = none := by
      rw [List.find?_eq_none]
      intro q hq hp
      exact hany (List.any_eq_true.mpr ⟨q, hq, hp⟩)
    refine ⟨⟨y, decToString (year_sum st.contributions y), none, none⟩, ?_, rfl, rfl⟩
    rw [List.find?_append, hnone, Option.none_or]
    simp [List.find?_cons]

/-- `close_year` always succeeds and returns the year, the freshly recomputed
total, the closing timestamp and the supplied note. -/
theorem close_year_ok (st : Store) (y : Int) (note : Option String) (now : String) :
    (close_year st y note now).1 =
      .ok ⟨y, year_sum st.contributions y, some now, note⟩ := by
  obtain ⟨r, hfind, htot, hyear⟩ := refresh_find st y
  have hcomp : ((fun q : YearSummaryRow => decide (q.year = y)) ∘
      (fun q : YearSummaryRow =>
        if q.year = y then { q with closed_at := some now, note := note } else q)) =
      fun q : YearSummaryRow => decide (q.year = y) := by
    funext q
    rw [Function.comp_apply]
    split <;> rfl
  simp only [close_year, get_year_summary, List.find?_map, hcomp, hfind,
    Option.map_some', if_pos hyear, map_year_summary]
  rw [htot, hyear, decimal_from_str_decToString, Option.getD_some]

/-- After `close_year` the year's row exists and is stamped with the closing
timestamp and note. -/
theorem close_year_closes (st : Store) (y : Int) (note : Option String)
    (now : String) :
    ∃ r, (close_year st y note now).2.summaries.find? (fun q => q.year = y) = some r ∧
      r.closed_at = some now ∧ r.year = y := by
  obtain ⟨r, hfind, htot, hyear⟩ := refresh_find st y
  have hcomp : ((fun q : YearSummaryRow => decide (q.year = y)) ∘
      (fun q : YearSummaryRow =>
        if q.year = y then { q with closed_at := some now, note := note } else q)) =
      fun q : YearSummaryRow => decide (q.year = y) := by
    funext q
    rw [Function.comp_apply]
    split <;> rfl
  refine ⟨{ r with closed_at := some now, note := note }, ?_, rfl, hyear⟩
  rw [close_year_state]
  simp only [List.find?_map, hcomp, hfind, Option.map_some', if_pos hyear]

/-- C4: `check_and_close_previous_year` is a no-op returning None when the
previous year already has a closed summary; otherwise it recomputes that
year's total, closes the year with the synthesized note embedding the year
and the formatted total, and returns Some of the closed summary; and of two
consecutive calls the second always returns None. -/
theorem c4_check_and_close_idempotent (st : Store) (p : Int) (now now2 : String) :
    (∀ ex, get_year_summary st p = some ex → ex.closed_at.isSome = true →
      check_and_close_previous_year st p now = (.ok none, st)) ∧
    ((∀ ex, get_year_summary st p = some ex → ex.closed_at = none) →
      (check_and_close_previous_year st p now).1 = .ok (some
        ⟨p, year_sum st.contributions p, some now,
          some (closing_note p (year_sum st.contributions p))⟩)) ∧
    (check_and_close_previous_year
      (check_and_close_previous_year st p now).2 p now2).1 = .ok none := by
  have skip_branch : ∀ (st0 : Store) (nw : String) (ex : YearSummary),
      get_year_summary st0 p = some ex → ex.closed_at.isSome = true →
      check_and_close_previous_year st0 p nw = (.ok none, st0) := by
    intro st0 nw ex hex hcl
    rw [check_and_close_previous_year]
    simp only [hex, hcl, if_pos trivial]
  have total_read : ∀ st0 : Store,
      ((get_year_summary (refresh_year_total st0 p) p).map (fun s => s.total)).getD
        decZero = year_sum st0.contributions p := by
    intro st0
    obtain ⟨r, hfind, htot, hyear⟩ := refresh_find st0 p
    rw [get_year_summary, hfind, Option.map_some', map_year_summary]
    simp only [Option.map_some', Option.getD_some]
    rw [htot, decimal_from_str_decToString, Option.getD_some]
  have open_branch : ∀ (st0 : Store) (nw : String),
      (∀ ex, get_year_summary st0 p = some ex → ex.closed_at = none) →
      (check_and_close_previous_year st0 p nw).1 = .ok (some
        ⟨p, year_sum st0.contributions p, some nw,
          some (closing_note p (year_sum st0.contributions p))⟩) ∧
      (∃ note2, (check_and_close_previous_year st0 p nw).2 =
        (close_year (refresh_year_total st0 p) p (some note2) nw).2) := by
    intro st0 nw hopen
    have hskip : (match get_year_summary st0 p with
        | some existing => existing.closed_at.isSome
        | none => false) = false := by
      cases hex : get_year_summary st0 p with
      | none => rfl
      | some ex => simp [hopen ex hex]
    rw [check_and_close_previous_year]
    simp only [hskip, Bool.false_eq_true, if_false]
    have hok := close_year_ok (refresh_year_total st0 p) p
      (some (closing_note p
        (((get_year_summary (refresh_year_total st0 p) p).map (fun s => s.total)).getD
          decZero))) nw
    rw [refresh_contributions] at hok
    split
    · next summ st2 heq =>
      have h1 := congrArg Prod.fst heq
      rw [hok] at h1
      rw [Except.ok.injEq] at h1
      have h2 := congrArg Prod.snd heq
      subst h1
      constructor
      · simp only [total_read st0]
      · exact ⟨_, h2.symm⟩
    · next e st2 heq =>
      have h1 := congrArg Prod.fst heq
      rw [hok] at h1
      exact absurd h1 (by simp)
  refine ⟨fun ex hex hcl => skip_branch st now ex hex hcl,
    fun hopen => (open_branch st now hopen).1, ?_⟩
  by_cases hfirst : ∃ ex, get_year_summary st p = some ex ∧ ex.closed_at.isSome = true
  · obtain ⟨ex, hex, hcl⟩ := hfirst
    rw [skip_branch st now ex hex hcl]
    simp only
    rw [skip_branch st now2 ex hex hcl]
  · push_neg at hfirst
    have hopen : ∀ ex, get_year_summary st p = some ex → ex.closed_at = none := by
      intro ex hex
      have := hfirst ex hex
      cases hcl : ex.closed_at with
      | none => rfl
      | some tnow => rw [hcl] at this; simp at this
    obtain ⟨note2, hst2⟩ := (open_branch st now hopen).2
    rw [hst2]
    obtain ⟨r, hfind, hcl, hyear⟩ :=
      close_year_closes (refresh_year_total st p) p (some note2) now
    have hgys : get_year_summary
        (close_year (refresh_year_total st p) p (some note2) now).2 p =
        some (map_year_summary r) := by
      rw [get_year_summary, hfind, Option.map_some']
    rw [check_and_close_previous_year]
    simp only [hgys, map_year_summary, hcl, Option.isSome_some, if_pos trivial]

/-- C4, witness: on the concrete store with one 2024 contribution, the first
check for previous year 2024 closes it with the synthesized note and the
second returns None. -/
theorem c4_check_and_close_witness :
    (check_and_close_previous_year storeOneContribution 2024 "T9").1 = .ok (some
      ⟨2024, year_sum storeOneContribution.contributions 2024, some "T9",
        some (closing_note 2024 (year_sum storeOneContribution.contributions 2024))⟩) ∧
    (check_and_close_previous_year
      (check_and_close_previous_year storeOneContribution 2024 "T9").2
      2024 "T10").1 = .ok none := by
  have h := c4_check_and_close_idempotent storeOneContribution 2024 "T9" "T10"
  exact ⟨h.2.1 (by decide), h.2.2⟩

-- ── Claim C5 ─────────────────────────────────────────────────────────────────

/-- C5, counterexample: with no summary row at all, `reopen_year` fails with a
Validation ("summary not found") error — the code has no structured NotFound
error for this path; the storage NotFound kind (RowNotFound) never appears. -/
theorem c5_reopen_missing_year_not_notfound :
    (reopen_year emptyStore 2020).1 =
      .error (.validation ("Résumé pour " ++ toString (2020 : Int) ++ " introuvable.")) ∧
    (reopen_year emptyStore 2020).1 ≠ .error (.db .rowNotFound) := by
  constructor
  · decide
  · decide

/-- C5 (amended): when a summary row for Y exists, `reopen_year(Y)` returns a
summary whose closed_at and note are None while its year is Y and its total is
the decoded stored total, and every stored row keeps its year and total; when
no row for Y exists it fails with a Validation (summary not found) domain
error — not a structured NotFound — and changes nothing. -/
theorem c5_reopen_year_spec (st : Store) (y : Int) :
    (∀ r, st.summaries.find? (fun q => q.year = y) = some r →
      (reopen_year st y).1 =
        .ok ⟨y, (decimal_from_str r.total).getD decZero, none, none⟩ ∧
      (reopen_year st y).2.summaries.map (fun q => (q.year, q.total)) =
        st.summaries.map (fun q => (q.year, q.total))) ∧
    (st.summaries.find? (fun q => q.year = y) = none →
      reopen_year st y =
        (.error (.validation ("Résumé pour " ++ toString y ++ " introuvable.")), st)) := by
  have hcomp : ((fun q : YearSummaryRow => decide (q.year = y)) ∘
      (fun q : YearSummaryRow =>
        if q.year = y then { q with closed_at := none, note := none } else q)) =
      fun q : YearSummaryRow => decide (q.year = y) := by
    funext q
    rw [Function.comp_apply]
    split <;> rfl
  constructor
  · intro r hr
    have hry : r.year = y := by
      have := List.find?_some hr
      simpa using this
    constructor
    · simp only [reopen_year, get_year_summary, List.find?_map, hcomp, hr,
        Option.map_some', if_pos hry, map_year_summary]
      rw [hry]
    · simp only [reopen_year, get_year_summary, List.find?_map, hcomp, hr,
        Option.map_some', if_pos hry, List.map_map]
      exact List.map_congr_left
        (fun q hq => by rw [Function.comp_apply]; split <;> rfl)
  · intro hnone
    have hgl : st.summaries.map (fun q : YearSummaryRow =>
        if q.year = y then { q with closed_at := none, note := none } else q) =
        st.summaries := by
      have hid : ∀ q ∈ st.summaries, (fun q : YearSummaryRow =>
          if q.year = y then { q with closed_at := none, note := none } else q) q =
          id q := by
        intro q hq
        have hqy : ¬(q.year = y) := by
          have := List.find?_eq_none.mp hnone q hq
          simpa using this
        simp only [id]
        rw [if_neg hqy]
      rw [List.map_congr_left hid, List.map_id]
    simp only [reopen_year, get_year_summary, hgl, hnone, Option.map_none']

/-- C5, witness: both branches evaluated concretely — reopening 2024 on the
store whose 2024 summary stores "100", and reopening a missing year. -/
theorem c5_reopen_year_witness :
    (reopen_year storeOneContribution 2024).1 =
      .ok ⟨2024, (decimal_from_str "100").getD decZero, none, none⟩ ∧
    reopen_year storeOneContribution 1999 =
      (.error (.validation ("Résumé pour " ++ toString (1999 : Int) ++ " introuvable.")),
        storeOneContribution) := by
  constructor
  · exact ((c5_reopen_year_spec storeOneContribution 2024).1
      ⟨2024, "100", none, none⟩ (by decide)).1
  · exact (c5_reopen_year_spec storeOneContribution 1999).2 (by decide)

-- ── Claim C6 ─────────────────────────────────────────────────────────────────

/-- C6: `delete_member` always succeeds; afterwards no member with the id and
no contribution referencing it remain; referential integrity is preserved (no
orphan appears); and when the id matches no member (and the store satisfies
the foreign-key integrity the schema enforces) nothing changes — deleting a
nonexistent id is a no-op, not an error. -/
theorem c6_delete_member_cascade (st : Store) (id : Int) :
    (delete_member st id).1 = .ok () ∧
    (∀ c ∈ (delete_member st id).2.contributions, c.member_id ≠ id) ∧
    (∀ m ∈ (delete_member st id).2.members, m.id ≠ id) ∧
    ((∀ c ∈ st.contributions, ∃ m ∈ st.members, m.id = c.member_id) →
      ∀ c ∈ (delete_member st id).2.contributions,
        ∃ m ∈ (delete_member st id).2.members, m.id = c.member_id) ∧
    ((∀ m ∈ st.members, m.id ≠ id) →
      (∀ c ∈ st.contributions, ∃ m ∈ st.members, m.id = c.member_id) →
      (delete_member st id).2 = st) := by
  refine ⟨rfl, ?_, ?_, ?_, ?_⟩
  · intro c hc
    have := List.of_mem_filter hc
    simpa using this
  · intro m hm
    have := List.of_mem_filter hm
    simpa using this
  · intro hfk c hc
    simp only [delete_member] at hc ⊢
    have hcmem : c ∈ st.contributions := List.mem_of_mem_filter hc
    have hcne : c.member_id ≠ id := by
      have := List.of_mem_filter hc
      simpa using this
    obtain ⟨m, hm, hmid⟩ := hfk c hcmem
    refine ⟨m, ?_, hmid⟩
    rw [List.mem_filter]
    refine ⟨hm, ?_⟩
    simp [hmid, hcne]
  · intro hno hfk
    have h1 : st.members.filter (fun m => m.id ≠ id) = st.members :=
      List.filter_eq_self.mpr (fun m hm => by simp [hno m hm])
    have h2 : st.contributions.filter (fun c => c.member_id ≠ id) = st.contributions := by
      refine List.filter_eq_self.mpr (fun c hc => ?_)
      obtain ⟨m, hm, hmid⟩ := hfk c hc
      have := hno m hm
      simp only [ne_eq, decide_not, Bool.not_eq_eq_eq_not, Bool.not_true,
        decide_eq_false_iff_not]
      omega
    simp only [delete_member]
    rw [h1, h2]

/-- C6, witness: deleting member 1 from the store with one contribution, and
deleting a nonexistent id 5 from the one-member store. -/
theorem c6_delete_member_witness :
    (delete_member storeOneContribution 1).1 = .ok () ∧
    (∀ c ∈ (delete_member storeOneContribution 1).2.contributions,
      ∃ m ∈ (delete_member storeOneContribution 1).2.members, m.id = c.member_id) ∧
    (delete_member storeOneMember 5).2 = storeOneMember :=
  ⟨(c6_delete_member_cascade storeOneContribution 1).1,
   (c6_delete_member_cascade storeOneContribution 1).2.2.2.1 (by decide),
   (c6_delete_member_cascade storeOneMember 5).2.2.2.2 (by decide) (by decide)⟩

-- ── Claim C7 ─────────────────────────────────────────────────────────────────

/-- C7, counterexample: the claim fails in two places.  With an empty id list
and an unrecognized category the code returns Ok 0 (the empty-list
short-circuit precedes the category validation) instead of failing with
Validation; and for a member already holding the target category the returned
count is 1 (the store counts every row matched by the UPDATE), not the number
of rows whose category actually changed. -/
theorem c7_transfer_members_claim_fails :
    (transfer_members emptyStore [] "Autre").1 = .ok 0 ∧
    (∀ msg, (transfer_members emptyStore [] "Autre").1 ≠ .error (.validation msg)) ∧
    (transfer_members storeOneMember [1] "Communiant").1 = .ok 1 ∧
    storeOneMember.members.map (fun m => m.member_type) = ["Communiant"] := by
  refine ⟨by decide, ?_, by decide, by decide⟩
  intro msg h
  have h0 : (transfer_members emptyStore [] "Autre").1 = .ok 0 := by decide
  rw [h0] at h
  exact Except.noConfusion h

/-- C7 (amended): an empty id list returns 0 immediately, regardless of the
category (the emptiness check precedes validation); a nonempty list with an
unrecognized category fails with Validation and changes nothing; otherwise the
returned count is the number of member rows matched by the id list (rows
already holding the category included) and exactly those rows are reassigned. -/
theorem c7_transfer_members_spec (st : Store) (ids : List Int) (t : String) :
    (ids = [] → transfer_members st ids t = (.ok 0, st)) ∧
    (ids ≠ [] → t ≠ "Communiant" → t ≠ "Cathekomen" →
      ∃ msg, transfer_members st ids t = (.error (.validation msg), st)) ∧
    (ids ≠ [] → (t = "Communiant" ∨ t = "Cathekomen") →
      transfer_members st ids t =
        (.ok (st.members.filter (fun m => ids.contains m.id)).length,
          { st with members := st.members.map (fun m =>
              if ids.contains m.id then { m with member_type := t } else m) })) := by
  refine ⟨?_, ?_, ?_⟩
  · intro h
    subst h
    rfl
  · intro hne ht1 ht2
    rw [transfer_members, if_neg (by simpa using hne), if_pos ⟨ht1, ht2⟩]
    exact ⟨_, rfl⟩
  · intro hne hval
    rw [transfer_members, if_neg (by simpa using hne),
      if_neg (by rcases hval with h | h <;> simp [h])]

/-- C7, witness: the three branches of the amended statement evaluated on
concrete stores. -/
theorem c7_transfer_members_witness :
    transfer_members emptyStore [] "Communiant" = (.ok 0, emptyStore) ∧
    (∃ msg, transfer_members storeOneMember [1] "Autre" =
      (.error (.validation msg), storeOneMember)) ∧
    (transfer_members storeOneMember [1] "Cathekomen").1 = .ok 1 := by
  refine ⟨(c7_transfer_members_spec emptyStore [] "Communiant").1 rfl,
    (c7_transfer_members_spec storeOneMember [1] "Autre").2.1
      (by decide) (by decide) (by decide), ?_⟩
  rw [(c7_transfer_members_spec storeOneMember [1] "Cathekomen").2.2
    (by decide) (Or.inr rfl)]
  decide

-- ── Claim C8 ─────────────────────────────────────────────────────────────────

/-- C8: for an input passing the emptiness validation, `update_member` on an
id matching no member fails with the storage NotFound error (RowNotFound from
the read-back) and changes nothing; on an existing id (with no card-number
conflict with another member) it replaces every mutable field while id and
created_at are untouched. -/
theorem c8_update_member_spec (st : Store) (mid : Int) (input : MemberInput)
    (hcard : strIsEmpty (trimStr input.card_number) = false)
    (hname : strIsEmpty (trimStr input.full_name) = false) :
    ((∀ m ∈ st.members, m.id ≠ mid) →
      update_member st mid input = (.error (.db .rowNotFound), st)) ∧
    (∀ m0, st.members.find? (fun m => m.id = mid) = some m0 →
      ¬(st.members.any (fun m => m.id ≠ mid ∧ m.card_number = input.card_number) = true) →
      (update_member st mid input).1 = .ok
        { id := m0.id
          card_number := input.card_number
          full_name := input.full_name
          address := input.address
          phone := input.phone
          job := input.job
          gender := input.gender
          member_type := input.member_type
          created_at := m0.created_at }) := by
  have hupd : ∀ (l : List Member), (l.map (fun m =>
      if m.id = mid then
        { m with card_number := input.card_number
                 full_name := input.full_name
                 address := input.address
                 phone := input.phone
                 job := input.job
                 gender := input.gender
                 member_type := input.member_type }
      else m)).find? (fun m => m.id = mid) =
      (l.find? (fun m => m.id = mid)).map (fun m =>
      if m.id = mid then
        { m with card_number := input.card_number
                 full_name := input.full_name
                 address := input.address
                 phone := input.phone
                 job := input.job
                 gender := input.gender
                 member_type := input.member_type }
      else m) := by
    intro l
    rw [List.find?_map]
    have hcomp2 : ((fun m : Member => decide (m.id = mid)) ∘ (fun m : Member =>
        if m.id = mid then
          { m with card_number := input.card_number
                   full_name := input.full_name
                   address := input.address
                   phone := input.phone
                   job := input.job
                   gender := input.gender
                   member_type := input.member_type }
        else m)) = fun m : Member => decide (m.id = mid) := by
      funext m
      rw [Function.comp_apply]
      split <;> rfl
    rw [hcomp2]
  constructor
  · intro hno
    have hany : ¬(st.members.any (fun m => m.id = mid) = true) := by
      rw [List.any_eq_true]
      rintro ⟨m, hm, hmid⟩
      exact hno m hm (by simpa using hmid)
    have hgl : st.members.map (fun m =>
        if m.id = mid then
          { m with card_number := input.card_number
                   full_name := input.full_name
                   address := input.address
                   phone := input.phone
                   job := input.job
                   gender := input.gender
                   member_type := input.member_type }
        else m) = st.members := by
      have hid : ∀ m ∈ st.members, (fun m : Member =>
          if m.id = mid then
            { m with card_number := input.card_number
                     full_name := input.full_name
                     address := input.address
                     phone := input.phone
                     job := input.job
                     gender := input.gender
                     member_type := input.member_type }
          else m) m = m := by
        intro m hm
        have hxx := hno m hm
        simp [hxx]
      rw [List.map_congr_left hid, List.map_id']
    have hfind : st.members.find? (fun m => m.id = mid) = none := by
      rw [List.find?_eq_none]
      intro m hm
      simpa using hno m hm
    rw [update_member, if_neg (by simp [hcard]), if_neg (by simp [hname]),
      if_neg (by rintro ⟨h1, _⟩; exact hany h1)]
    simp only [hgl, get_member, hfind]
  · intro m0 hm0 hconf
    have hm0id : m0.id = mid := by
      have := List.find?_some hm0
      simpa using this
    have hany : st.members.any (fun m => m.id = mid) = true :=
      List.any_eq_true.mpr ⟨m0, List.mem_of_find?_eq_some hm0, by simp [hm0id]⟩
    rw [update_member, if_neg (by simp [hcard]), if_neg (by simp [hname]),
      if_neg (by rintro ⟨_, h2⟩; exact hconf h2)]
    simp only [get_member, hupd, hm0, Option.map_some', if_pos hm0id]

/-- C8, witness: the NotFound branch on a missing id 99 and the full-field
replacement on the existing id 1. -/
theorem c8_update_member_witness :
    update_member storeOneMember 99 ⟨"C009", "Jean", none, none, none, "M", "Communiant"⟩ =
      (.error (.db .rowNotFound), storeOneMember) ∧
    (update_member storeOneMember 1
        ⟨"C001-U", "Alice Martin", none, none, none, "F", "Communiant"⟩).1 = .ok
      { id := 1
        card_number := "C001-U"
        full_name := "Alice Martin"
        address := none
        phone := none
        job := none
        gender := "F"
        member_type := "Communiant"
        created_at := "2024-01-01T00:00:00" } := by
  constructor
  · exact (c8_update_member_spec storeOneMember 99
      ⟨"C009", "Jean", none, none, none, "M", "Communiant"⟩
      (by decide) (by decide)).1 (by decide)
  · exact (c8_update_member_spec storeOneMember 1
      ⟨"C001-U", "Alice Martin", none, none, none, "F", "Communiant"⟩
      (by decide) (by decide)).2
      ⟨1, "C001", "Alice", none, none, none, "F", "Communiant", "2024-01-01T00:00:00"⟩
      (by decide) (by decide)

end LM
